import Mathlib

/-!
Shallow embedding of bitzl/iiif-presenter (src/main.rs, src/iiif.rs).

Rust strings are modelled at the character level (`List Char`) where string
algorithms matter (the identifier/path codec), and as Lean `String`
(a structure over `List Char`) for the document model.  Machine integers
(`u64` widths/heights, `usize` indices) are modelled as `Nat`: the program
only stores and prints them, it performs no wrapping arithmetic on them.
Filesystem, image-classifier and sidecar-metadata collaborators are external
per the spec; they enter the assembler as explicit oracle inputs.
-/

namespace Presenter

/-! ### Character-level codec

`ManifestSource::path_for_id` (src/main.rs:35-39) does
`id.value.replace(&self.path_sep, os_sep)` and joins the result onto
`base_path`; image identifiers are built from
`format!("{}{}{}", item_id.value, self.path_sep, file_name)`
(src/main.rs:74-76).  `replaceCore` / `rustReplace` reproduce Rust's
`str::replace` (leftmost, non-overlapping; an empty pattern matches at
every character boundary including both ends). -/

/-- Worker for Rust `str::replace` with non-empty pattern `p :: ps`: while
the first argument is positive it only skips characters (the tail of an
occurrence just replaced); at `0` it matches the pattern at the current
position, emitting `rep` and entering skip mode on a match.  Structural
recursion on the character list keeps this kernel-reducible. -/
def replaceAux (p : Char) (ps rep : List Char) : Nat → List Char → List Char
  | _, [] => []
  | n + 1, _ :: cs => replaceAux p ps rep n cs
  | 0, c :: cs =>
    if (p :: ps).isPrefixOf (c :: cs) then rep ++ replaceAux p ps rep ps.length cs
    else c :: replaceAux p ps rep 0 cs

/-- One pass of Rust `str::replace` for a non-empty pattern `p :: ps`:
replace each leftmost non-overlapping occurrence with `rep`. -/
def replaceCore (p : Char) (ps rep : List Char) (s : List Char) : List Char :=
  replaceAux p ps rep 0 s

/-- Rust `s.replace(pat, rep)` on character lists.  An empty pattern matches
at every boundary, so `"ab".replace("", "x") = "xaxbx"`. -/
def rustReplace (s pat rep : List Char) : List Char :=
  match pat with
  | [] => rep ++ s.foldr (fun c acc => c :: (rep ++ acc)) []
  | p :: ps => replaceCore p ps rep s

/-- Split a character list at every occurrence of the character `c`
(the platform path separator when decoding); always returns at least one
(possibly empty) segment, like Rust's `split`. -/
def splitCh (c : Char) : List Char → List (List Char)
  | [] => [[]]
  | a :: as =>
    if a = c then [] :: splitCh c as
    else
      match splitCh c as with
      | [] => [[a]]
      | b :: bs => (a :: b) :: bs

/-- Join segments with the separator string `s`: the `encode` direction of
the codec, `parent ++ sep ++ filename` iterated (src/main.rs:74-76). -/
def joinSep (s : List Char) : List (List Char) → List Char
  | [] => []
  | [x] => x
  | x :: y :: ys => x ++ s ++ joinSep s (y :: ys)

/-- The platform path-segment separator, `std::path::MAIN_SEPARATOR`
on the Linux target. -/
def osSep : Char := '/'

/-- The relative decoded path of an identifier:
`id.value.replace(&self.path_sep, os_sep)` (src/main.rs:37). -/
def decodeRel (sep idval : List Char) : List Char := rustReplace idval sep [osSep]

/-- The path segments of the decoded (relative) path. -/
def relSegments (sep idval : List Char) : List (List Char) :=
  splitCh osSep (decodeRel sep idval)

/-- Re-encode path segments into an identifier: concatenate them with the
configured separator, as the image-identifier construction does for
`parent identifier ++ sep ++ filename` (src/main.rs:74-76). -/
def encodeSegments (sep : List Char) (segs : List (List Char)) : List Char :=
  joinSep sep segs

/-! ### String-level wrappers used by the assembler -/

/-- Rust `String::replace` on Lean strings. -/
def strReplace (s pat rep : String) : String :=
  ⟨rustReplace s.data pat.data rep.data⟩

/-- Rust `PathBuf::join` on the Linux target: an absolute right operand
replaces the base; otherwise the two are joined with one separator. -/
def pathJoin (base p : String) : String :=
  if [osSep].isPrefixOf p.data then p
  else if base.data = [] then p
  else if base.data.getLast? = some osSep then base ++ p
  else base ++ "/" ++ p

/-! ### IIIF document model (src/iiif.rs) -/

/-- src/iiif.rs:113-125 `Uri`: opaque absolute-URI wrapper. -/
structure Uri where
  value : String
deriving DecidableEq

/-- src/iiif.rs:119-125 `Uri::new`. -/
def Uri.new (value : String) : Uri := ⟨value⟩

/-- src/iiif.rs:11-15 `LocalizedValue`. -/
structure LocalizedValue where
  value : String
  language : String
deriving DecidableEq

/-- src/iiif.rs:3-9 metadata `Value`: single string, list, or localized list. -/
inductive Value where
  | Single (s : String)
  | Many (ss : List String)
  | Multilang (vs : List LocalizedValue)
deriving DecidableEq

/-- src/iiif.rs:17-21 `Metadata`: a label/value pair. -/
structure Metadata where
  label : String
  value : Value
deriving DecidableEq

/-- src/iiif.rs:24-29 `Metadata::new`. -/
def Metadata.new (label : String) (value : Value) : Metadata := ⟨label, value⟩

/-- src/iiif.rs:31-36 `Metadata::key_value`: a label with a single string
value. -/
def Metadata.key_value (label value : String) : Metadata :=
  ⟨label, Value.Single value⟩

/-- src/iiif.rs:167-176 `BaseUrls`: the two configured API base URLs. -/
structure BaseUrls where
  presentation : String
  image : String
deriving DecidableEq

/-- src/iiif.rs:172-176 `BaseUrls::new`. -/
def BaseUrls.new (presentation image : String) : BaseUrls := ⟨presentation, image⟩

/-- src/iiif.rs:260-264 `ImageFormat`. -/
inductive ImageFormat where
  | JPEG
  | PNG
  | Unknown
deriving DecidableEq

/-- src/iiif.rs:267-273 `ImageFormat::extension`. -/
def ImageFormat.extension : ImageFormat → String
  | .JPEG => "jpg"
  | .PNG => "png"
  | .Unknown => ""

/-- src/iiif.rs:275-281 `ImageFormat::format` (MIME type). -/
def ImageFormat.format : ImageFormat → String
  | .JPEG => "image/jpeg"
  | .PNG => "image/png"
  | .Unknown => "image/unknown"

/-- src/iiif.rs:94-100 `Service`: an Image-API service descriptor. -/
structure Service where
  context : Uri
  id : Uri
  profile : Uri
  protocol : Uri
deriving DecidableEq

/-- src/iiif.rs:102-110 `Service::new_image_service`.  Note the `protocol`
literal `"http://iiiif.io/api/image"` is transcribed from the source
verbatim, extra `i` included. -/
def Service.new_image_service (base_urls : BaseUrls) (image_id : String) : Service :=
  { context := Uri.new "http://iiif.io/api/image/2/context.json"
    id := Uri.new (base_urls.image ++ "/" ++ image_id)
    profile := Uri.new "http://iiif.io/api/image/2/level2.json"
    protocol := Uri.new "http://iiiif.io/api/image" }

/-- src/iiif.rs:238-247 `ImageResource`. -/
structure ImageResource where
  id : Uri
  iiif_type : String
  format : String
  service : Service
  width : Nat
  height : Nat
deriving DecidableEq

/-- src/iiif.rs:249-257 `ImageResource::new`.  The service is keyed by
`item_id`, not `image_id`. -/
def ImageResource.new (base_urls : BaseUrls) (item_id image_id : String)
    (image_format : ImageFormat) (width height : Nat) : ImageResource :=
  { id := Uri.new (base_urls.image ++ "/" ++ item_id ++ "/" ++ image_id ++
      "/full/full/default." ++ image_format.extension)
    iiif_type := "dctypes:Image"
    format := image_format.format
    service := Service.new_image_service base_urls item_id
    width := width
    height := height }

/-- src/iiif.rs:233-236 `Resource`. -/
inductive Resource where
  | Image (ir : ImageResource)
deriving DecidableEq

/-- src/iiif.rs:214-222 the annotation type (Rust struct `Annotation`;
renamed here only because of a local lexical restriction on that
identifier). -/
structure Annot where
  context : Uri
  iiif_type : String
  motivation : String
  resource : Resource
  onTarget : Uri
deriving DecidableEq

/-- src/iiif.rs:224-231 `Annotation::new`.  `base_urls` is accepted and
unused, exactly as in the source.  `onTarget` models the Rust field `on`
(`on` is reserved in Lean). -/
def Annot.new (_base_urls : BaseUrls) (resource : Resource) (onTarget : Uri) : Annot :=
  { context := Uri.new "http://iiif.io/api/presentation/2/context.json"
    iiif_type := "oa:Annotation"
    motivation := "sc:painting"
    resource := resource
    onTarget := onTarget }

/-- src/iiif.rs:178-188 `Canvas`. -/
structure Canvas where
  id : Uri
  context : Uri
  iiif_type : String
  label : String
  height : Nat
  width : Nat
  images : List Annot
deriving DecidableEq

/-- src/iiif.rs:190-198 `Canvas::new`. -/
def Canvas.new (base_urls : BaseUrls) (item_id : String) (index : Nat)
    (label : String) (width height : Nat) : Canvas :=
  { id := Uri.new (base_urls.presentation ++ "/" ++ item_id ++ "/canvas/" ++ toString index)
    context := Uri.new "http://iiif.io/api/presentation/2/context.json"
    iiif_type := "sc:Canvas"
    label := label
    height := height
    width := width
    images := [] }

/-- src/iiif.rs:200-202 `Canvas::add_image` (mutation modelled
functionally). -/
def Canvas.add_image (c : Canvas) (image : Annot) : Canvas :=
  { c with images := c.images ++ [image] }

/-- src/iiif.rs:127-135 `Sequence`. -/
structure Sequence where
  context : Uri
  id : Uri
  iiif_type : String
  label : String
  canvases : List Canvas
deriving DecidableEq

/-- src/iiif.rs:138-151 `Sequence::new`. -/
def Sequence.new (base_urls : BaseUrls) (item_id label : String) : Sequence :=
  { context := Uri.new "http://iiif.io/api/presentation/2/context.json"
    id := Uri.new (base_urls.presentation ++ "/" ++ item_id ++ "/sequence/normal")
    iiif_type := "sc:Sequence"
    label := label
    canvases := [] }

/-- src/iiif.rs:153-155 `Sequence::add`. -/
def Sequence.add (s : Sequence) (canvas : Canvas) : Sequence :=
  { s with canvases := s.canvases ++ [canvas] }

/-- src/iiif.rs:157-164 `Sequence::add_image`: build a Canvas at index
`canvases.len()`, an ImageResource, an annotation targeting the new
canvas's id, attach the annotation to the canvas and push it. -/
def Sequence.add_image (s : Sequence) (base_urls : BaseUrls)
    (item_id image_id label : String) (image_format : ImageFormat)
    (width height : Nat) : Sequence :=
  let index := s.canvases.length
  let canvas := Canvas.new base_urls item_id index label width height
  let image_resource := ImageResource.new base_urls item_id image_id image_format width height
  let ann := Annot.new base_urls (Resource.Image image_resource) canvas.id
  { s with canvases := s.canvases ++ [canvas.add_image ann] }

/-- src/iiif.rs:39-55 `Manifest`. -/
structure Manifest where
  context : Uri
  id : Uri
  iiif_type : String
  label : String
  metadata : List Metadata
  description : Option String
  sequences : List Sequence
deriving DecidableEq

/-- src/iiif.rs:57-81 `Manifest::new`. -/
def Manifest.new (base_urls : BaseUrls) (item_id label : String)
    (metadata : List Metadata) (description : Option String) : Manifest :=
  { context := Uri.new "http://iiif.io/api/presentation/2/context.json"
    id := Uri.new (base_urls.presentation ++ "/" ++ item_id ++ "/manifest")
    iiif_type := "sc:Manifest"
    label := label
    metadata := metadata
    description := description
    sequences := [] }

/-- src/iiif.rs:83-85 `Manifest::add_sequence`. -/
def Manifest.add_sequence (m : Manifest) (sequence : Sequence) : Manifest :=
  { m with sequences := m.sequences ++ [sequence] }

/-! ### Assembler (src/main.rs) with its collaborators as oracle inputs -/

/-- Opaque identifier wrapper (`Id` from the `iiif::types` module used by
src/main.rs; only its `value` field is ever read there). -/
structure Id where
  value : String
deriving DecidableEq

/-- `Id::new` as used in src/main.rs:74 and 113. -/
def Id.new (value : String) : Id := ⟨value⟩

/-- Modelled from the spec: the image-classifier collaborator's result,
`ClassifyFile(path) -> Option<(Format, width: u64, height: u64)>` (spec §6);
the `image` module consulted by src/main.rs:68 is outside the covered
core. -/
structure ImageInfo where
  format : ImageFormat
  width : Nat
  height : Nat
deriving DecidableEq

/-- Modelled from the spec: the sidecar-metadata collaborator's data,
`LoadContext(dir) -> { description, metadata }` (spec §6); src/main.rs:50-56
reads exactly these two fields of `Context`. -/
structure Context where
  description : Option String
  metadata : List Metadata
deriving DecidableEq

/-- `Context::empty` as used in src/main.rs:54: no description, no
metadata. -/
def Context.empty : Context := ⟨none, []⟩

/-- What the directory scan learns about one readable entry: the answers of
`path.file_name().and_then(OsStr::to_str)` (None for a non-representable
name) and of `ImageInfo::for_file(&path)` (None when the entry is not a
classifiable image). -/
structure EntryData where
  fileName : Option String
  image : Option ImageInfo
deriving DecidableEq

/-- One `std::fs::ReadDir` item: either a per-entry read error (with its
message) or a readable entry. -/
inductive DirEntry where
  | readError (msg : String)
  | found (e : EntryData)
deriving DecidableEq

/-- The filesystem's answers for the one resolved source path probed by
`manifest_for`: `exists()`, `is_dir()`, and `read_dir` (which can itself
fail even after both checks pass — permissions, races). -/
structure FsView where
  pathExists : Bool
  isDirectory : Bool
  listing : Except String (List DirEntry)

/-- src/main.rs:20-24 `ManifestSource`: the immutable per-process
configuration. -/
structure ManifestSource where
  base_path : String
  base_urls : BaseUrls
  path_sep : String

/-- src/main.rs:35-39 `ManifestSource::path_for_id`: replace the configured
separator with the platform separator and join onto the base path. -/
def ManifestSource.path_for_id (ms : ManifestSource) (id : Id) : String :=
  pathJoin ms.base_path (strReplace id.value ms.path_sep "/")

/-- The `Ok(value) / Err(_) => Context::empty()` fallback of
src/main.rs:50-56. -/
def effContext : Except String Context → Context
  | .ok value => value
  | .error _ => Context.empty

/-- The body of the `read_dir` loop of src/main.rs:59-89 for one entry:
unreadable entries, unclassifiable files and non-representable names are
skipped; a classified file is appended to the sequence with image id
`item_id ++ path_sep ++ file_name`. -/
def scanEntry (ms : ManifestSource) (item_id : Id) (seq : Sequence) :
    DirEntry → Sequence
  | .readError _ => seq
  | .found ed =>
    match ed.image with
    | some image_info =>
      match ed.fileName with
      | some file_name =>
        seq.add_image ms.base_urls item_id.value
          (item_id.value ++ ms.path_sep ++ file_name) file_name
          image_info.format image_info.width image_info.height
      | none => seq
    | none => seq

/-- src/main.rs:41-104 `ManifestSource::manifest_for`.  The filesystem and
the two collaborators enter as oracle arguments (`fs`, `ctx`).  The result
is `none` exactly when the Rust code panics: `read_dir(..).unwrap()`
(src/main.rs:59) on a listing error.  Otherwise `some (Except.error msg)`
models the early `Err` returns and `some (Except.ok m)` the built manifest.
The `Sequence::new` / `add_image` calls bridge the label arguments of
src/iiif.rs with the values main.rs has in scope (`item_id` resp.
`file_name`). -/
def ManifestSource.manifest_for (ms : ManifestSource) (fs : FsView)
    (ctx : Except String Context) (item_id : Id) :
    Option (Except String Manifest) :=
  let source_path := ms.path_for_id item_id
  if fs.pathExists = false then
    some (.error ("path " ++ source_path ++ " does not exist"))
  else if fs.isDirectory = false then
    some (.error ("path " ++ source_path ++ " is not a directory"))
  else
    match fs.listing with
    | .error _ => none
    | .ok entries =>
      let context := effContext ctx
      let seq := entries.foldl (scanEntry ms item_id)
        (Sequence.new ms.base_urls item_id.value item_id.value)
      let description := some (context.description.getD item_id.value)
      let metadata := context.metadata ++ [Metadata.key_value "location" item_id.value]
      let manifest := Manifest.new ms.base_urls item_id.value item_id.value
        metadata description
      some (.ok (manifest.add_sequence seq))

/-! ### Helper definitions for stating the claims -/

/-- The argument tuple of one `Sequence::add_image` call
(src/iiif.rs:157). -/
structure AddCall where
  base_urls : BaseUrls
  item_id : String
  image_id : String
  label : String
  format : ImageFormat
  width : Nat
  height : Nat

/-- Perform a list of `Sequence::add_image` calls in order. -/
def runAddCalls (s : Sequence) (calls : List AddCall) : Sequence :=
  calls.foldl
    (fun sq c =>
      sq.add_image c.base_urls c.item_id c.image_id c.label c.format c.width c.height)
    s

/-- The canvas one `add_image` call appends when the sequence holds `index`
canvases: a fresh canvas carrying one annotation that paints the call's
image resource onto the canvas's own id. -/
def canvasFor (c : AddCall) (index : Nat) : Canvas :=
  let cv := Canvas.new c.base_urls c.item_id index c.label c.width c.height
  cv.add_image
    (Annot.new c.base_urls
      (Resource.Image
        (ImageResource.new c.base_urls c.item_id c.image_id c.format c.width c.height))
      cv.id)

/-- The canvases a list of `add_image` calls appends, the first at position
`index`. -/
def expectedCanvases (index : Nat) : List AddCall → List Canvas
  | [] => []
  | c :: cs => canvasFor c index :: expectedCanvases (index + 1) cs

/-- The asset id of the image resource painted by an annotation. -/
def annotResourceId (a : Annot) : String :=
  match a.resource with
  | .Image ir => ir.id.value

/-- The image service embedded in the resource painted by an annotation. -/
def annotService (a : Annot) : Service :=
  match a.resource with
  | .Image ir => ir.service

/-! ## Proofs

### Codec lemmas -/

/-- Skipping `k` characters and resuming equals resuming on the dropped
list. -/
theorem replaceAux_skip (p : Char) (ps rep : List Char) :
    ∀ (cs : List Char) (k : Nat),
      replaceAux p ps rep k cs = replaceAux p ps rep 0 (cs.drop k) := by
  intro cs
  induction cs with
  | nil => intro k; cases k <;> simp [replaceAux]
  | cons c cs ih =>
    intro k
    cases k with
    | zero => simp
    | succ n => simpa [replaceAux] using ih n

/-- The defining recursion of `replaceCore` in Rust's terms: at each
position, either the pattern matches (emit `rep`, continue past the
occurrence) or the head character is copied. -/
theorem replaceCore_cons (p : Char) (ps rep : List Char) (c : Char) (cs : List Char) :
    replaceCore p ps rep (c :: cs) =
      if (p :: ps).isPrefixOf (c :: cs) then rep ++ replaceCore p ps rep (cs.drop ps.length)
      else c :: replaceCore p ps rep cs := by
  rw [replaceCore, replaceAux, replaceAux_skip p ps rep cs ps.length]
  rfl

theorem splitCh_ne_nil (c : Char) (l : List Char) : splitCh c l ≠ [] := by
  induction l with
  | nil => simp [splitCh]
  | cons a as ih =>
    simp only [splitCh]
    by_cases h : a = c
    · simp [h]
    · simp only [h, if_false]
      cases hs : splitCh c as <;> simp

theorem splitCh_cons_sep (c : Char) (as : List Char) :
    splitCh c (c :: as) = [] :: splitCh c as := by
  rw [splitCh, if_pos rfl]

theorem splitCh_cons_of_ne (c a : Char) (as : List Char) (h : a ≠ c)
    (b : List Char) (bs : List (List Char)) (hs : splitCh c as = b :: bs) :
    splitCh c (a :: as) = (a :: b) :: bs := by
  rw [splitCh, if_neg h, hs]

theorem joinSep_cons_head (s : List Char) (c : Char) (b : List Char)
    (t : List (List Char)) :
    joinSep s ((c :: b) :: t) = c :: joinSep s (b :: t) := by
  cases t with
  | nil => rfl
  | cons y ys => simp [joinSep]

theorem joinSep_nil_head (s : List Char) (l : List (List Char)) (h : l ≠ []) :
    joinSep s ([] :: l) = s ++ joinSep s l := by
  cases l with
  | nil => exact absurd rfl h
  | cons y ys => rfl

/-- Decoding with a non-empty separator and re-encoding restores any
identifier that contains no platform path separator: every `osSep` in the
decoded path stems from one replaced separator occurrence. -/
theorem roundtrip_core (p : Char) (ps : List Char) :
    ∀ (n : Nat) (s : List Char), s.length ≤ n → osSep ∉ s →
      joinSep (p :: ps) (splitCh osSep (replaceCore p ps [osSep] s)) = s := by
  intro n
  induction n with
  | zero =>
    intro s hlen _
    have hs : s = [] := List.length_eq_zero.mp (Nat.le_zero.mp hlen)
    subst hs
    rfl
  | succ n ih =>
    intro s hlen hmem
    cases s with
    | nil => rfl
    | cons c cs =>
      have hcs : cs.length ≤ n := by
        simp only [List.length_cons] at hlen
        omega
      rw [replaceCore_cons]
      by_cases hpre : (p :: ps).isPrefixOf (c :: cs)
      · rw [if_pos hpre]
        have hpre' : (p :: ps) <+: (c :: cs) := List.isPrefixOf_iff_prefix.mp hpre
        have heq := List.prefix_iff_eq_append.mp hpre'
        simp only [List.length_cons, List.drop_succ_cons] at heq
        have hm2 : osSep ∉ cs.drop ps.length :=
          fun hx => hmem (List.mem_cons_of_mem c (List.drop_subset _ _ hx))
        have hlen2 : (cs.drop ps.length).length ≤ n := by
          simp only [List.length_drop]
          omega
        rw [List.singleton_append, splitCh_cons_sep,
          joinSep_nil_head _ _ (splitCh_ne_nil _ _), ih _ hlen2 hm2]
        exact heq
      · rw [if_neg hpre]
        have hc : c ≠ osSep := fun h => hmem (h ▸ List.mem_cons_self c cs)
        have hm2 : osSep ∉ cs := fun hx => hmem (List.mem_cons_of_mem c hx)
        obtain ⟨b, bs, hbs⟩ : ∃ b bs,
            splitCh osSep (replaceCore p ps [osSep] cs) = b :: bs := by
          cases h : splitCh osSep (replaceCore p ps [osSep] cs) with
          | nil => exact absurd h (splitCh_ne_nil _ _)
          | cons b bs => exact ⟨b, bs, rfl⟩
        rw [splitCh_cons_of_ne osSep c _ hc b bs hbs, joinSep_cons_head]
        have hrec := ih cs hcs hm2
        rw [hbs] at hrec
        rw [hrec]

/-! ### Claim C1 -/

/-- C1 (counterexample): the round-trip law fails as stated.  For the
identifier `"a/b"` and separator `"-"`, the separator occurs in no path
segment of the decoded path (the segments are `"a"` and `"b"`), yet
re-encoding the segments with the separator yields `"a-b"`, not `"a/b"`. -/
theorem C1_roundtrip_counterexample :
    (∀ seg ∈ relSegments "-".data "a/b".data, ¬ ("-".data <:+: seg)) ∧
      encodeSegments "-".data (relSegments "-".data "a/b".data) ≠ "a/b".data := by
  decide

/-- C1 (amended): for every identifier `I` that contains no platform
path-separator character and every configured separator `S` such that `S`
does not occur in any path segment of the decoded path, encoding the
decoded path's components back with `S` (as the image-identifier
construction `parent ++ S ++ filename` does) yields `I` again. -/
theorem C1_encode_decode_roundtrip (I S : List Char) (hI : osSep ∉ I)
    (hseg : ∀ seg ∈ relSegments S I, ¬ (S <:+: seg)) :
    encodeSegments S (relSegments S I) = I := by
  cases S with
  | nil =>
    exfalso
    obtain ⟨seg, hmem⟩ : ∃ seg, seg ∈ relSegments [] I := by
      cases h : relSegments [] I with
      | nil => exact absurd h (splitCh_ne_nil _ _)
      | cons b bs => exact ⟨b, by simp [h]⟩
    exact hseg seg hmem List.nil_infix
  | cons p ps =>
    exact roundtrip_core p ps I.length I le_rfl hI

/-- C1 (witness): the amended round trip at the identifier `"a-b"` with
separator `"-"`. -/
theorem C1_encode_decode_roundtrip_witness :
    encodeSegments "-".data (relSegments "-".data "a-b".data) = "a-b".data :=
  C1_encode_decode_roundtrip "a-b".data "-".data (by decide) (by decide)

/-! ### Claim C2 -/

/-- C2: every constructed ImageResource has asset id
`{image_base}/{item_id}/{image_id}/full/full/default.{ext}` with extension
`jpg` / `png` / empty for JPEG / PNG / Unknown; and for root identifier
`"books-section1"`, separator `"-"`, a JPEG file `page1.jpg` of size
800×1200 plus an unclassifiable `notes.txt`, the produced Manifest has
exactly one Canvas, of width 800 and height 1200, whose asset id is
`{image_base}/books-section1/books-section1-page1.jpg/full/full/default.jpg`. -/
theorem C2_asset_id_template_and_example :
    (∀ (b : BaseUrls) (item_id image_id : String) (fmt : ImageFormat)
        (width height : Nat),
      (ImageResource.new b item_id image_id fmt width height).id.value =
        b.image ++ "/" ++ item_id ++ "/" ++ image_id ++ "/full/full/default." ++
          fmt.extension) ∧
    (ImageFormat.JPEG.extension = "jpg" ∧ ImageFormat.PNG.extension = "png" ∧
      ImageFormat.Unknown.extension = "") ∧
    (∀ pres img : String,
      ∃ m,
        (ManifestSource.mk "/data" (BaseUrls.mk pres img) "-").manifest_for
            (FsView.mk true true (.ok
              [DirEntry.found (EntryData.mk (some "page1.jpg")
                 (some (ImageInfo.mk ImageFormat.JPEG 800 1200))),
               DirEntry.found (EntryData.mk (some "notes.txt") none)]))
            (.error "no context file") (Id.new "books-section1") =
          some (Except.ok m) ∧
        m.sequences.map (fun s => s.canvases.map
            (fun cv => (cv.width, cv.height, cv.images.map annotResourceId))) =
          [[(800, 1200,
             [img ++ "/books-section1/books-section1-page1.jpg/full/full/default.jpg"])]]) := by
  refine ⟨fun b item_id image_id fmt width height => rfl, ⟨rfl, rfl, rfl⟩, ?_⟩
  intro pres img
  refine ⟨_, rfl, ?_⟩
  show [[(800, 1200, [annotResourceId _])]] = _
  simp only [annotResourceId, ImageResource.new, Uri.new, String.append_assoc]
  rfl

/-! ### Claim C3 -/

/-- C3: every constructed ImageResource embeds an image-service descriptor
whose id is `{image_base}/{item_id}` — derived from the item identifier,
not the per-image identifier, so all images of one item share one service
id — and whose context and profile are fixed constants. -/
theorem C3_image_service_of_item (b : BaseUrls) (item_id image_id : String)
    (fmt : ImageFormat) (width height : Nat) :
    ((ImageResource.new b item_id image_id fmt width height).service.id.value =
      b.image ++ "/" ++ item_id) ∧
    ((ImageResource.new b item_id image_id fmt width height).service.context.value =
      "http://iiif.io/api/image/2/context.json") ∧
    ((ImageResource.new b item_id image_id fmt width height).service.profile.value =
      "http://iiif.io/api/image/2/level2.json") ∧
    ((ImageResource.new b item_id image_id fmt width height).service =
      Service.new_image_service b item_id) ∧
    (∀ (image_id2 : String) (fmt2 : ImageFormat) (width2 height2 : Nat),
      (ImageResource.new b item_id image_id2 fmt2 width2 height2).service =
        (ImageResource.new b item_id image_id fmt width height).service) :=
  ⟨rfl, rfl, rfl, rfl, fun _ _ _ _ => rfl⟩

/-! ### Claim C4 -/

/-- C4: `manifest_for` returns an error value exactly when the resolved
path does not exist or exists but is not a directory, and the two error
messages name the failed path and the reason (`"path … does not exist"`,
`"path … is not a directory"`). -/
theorem C4_error_conditions (ms : ManifestSource) (fs : FsView)
    (ctx : Except String Context) (item_id : Id) :
    ((∃ msg, ms.manifest_for fs ctx item_id = some (Except.error msg)) ↔
      (fs.pathExists = false ∨ fs.isDirectory = false)) ∧
    (fs.pathExists = false →
      ms.manifest_for fs ctx item_id =
        some (Except.error ("path " ++ ms.path_for_id item_id ++ " does not exist"))) ∧
    (fs.pathExists = true → fs.isDirectory = false →
      ms.manifest_for fs ctx item_id =
        some (Except.error ("path " ++ ms.path_for_id item_id ++ " is not a directory"))) := by
  obtain ⟨pe, dir, lst⟩ := fs
  cases pe with
  | false =>
    exact ⟨⟨fun _ => Or.inl rfl, fun _ => ⟨_, rfl⟩⟩, fun _ => rfl,
      fun h => by simp at h⟩
  | true =>
    cases dir with
    | false =>
      exact ⟨⟨fun _ => Or.inr rfl, fun _ => ⟨_, rfl⟩⟩, fun h => by simp at h,
        fun _ _ => rfl⟩
    | true =>
      cases lst with
      | error e =>
        refine ⟨⟨?_, ?_⟩, fun h => by simp at h, fun _ h => by simp at h⟩
        · rintro ⟨msg, hmsg⟩
          exact Option.noConfusion hmsg
        · rintro (h | h) <;> simp at h
      | ok es =>
        refine ⟨⟨?_, ?_⟩, fun h => by simp at h, fun _ h => by simp at h⟩
        · rintro ⟨msg, hmsg⟩
          exact Except.noConfusion (Option.some.inj hmsg)
        · rintro (h | h) <;> simp at h

/-- C4 (witness): a request whose resolved path `/data/books` is reported
absent yields exactly the not-exist error message. -/
theorem C4_error_conditions_witness :
    (ManifestSource.mk "/data" (BaseUrls.mk "P" "I") "-").manifest_for
        (FsView.mk false true (.ok [])) (.error "e") (Id.new "books") =
      some (Except.error "path /data/books does not exist") :=
  (C4_error_conditions (ManifestSource.mk "/data" (BaseUrls.mk "P" "I") "-")
    (FsView.mk false true (.ok [])) (.error "e") (Id.new "books")).2.1 rfl

/-! ### Claim C5 -/

/-- C5 (counterexample): with the resolved path existing and being a
directory but `read_dir` itself failing (permissions, race), the code hits
`read_dir(..).unwrap()` (src/main.rs:59) and panics — modelled as `none` —
instead of returning a Manifest, so "no execution path after the two path
checks can fail or panic" is false as stated. -/
theorem C5_no_panic_counterexample :
    (FsView.mk true true (Except.error "permission denied")).pathExists = true ∧
    (FsView.mk true true (Except.error "permission denied")).isDirectory = true ∧
    (ManifestSource.mk "/data" (BaseUrls.mk "P" "I") "-").manifest_for
        (FsView.mk true true (Except.error "permission denied"))
        (.ok (Context.mk none [])) (Id.new "books") = none :=
  ⟨rfl, rfl, rfl⟩

/-- C5 (amended): if the resolved path exists, is a directory, and the
directory listing itself is obtained successfully, assembly always
completes and returns a Manifest; per-entry conditions (unreadable entry,
unclassifiable file, non-representable name) are skipped and never abort
the request.  (The unamended claim fails only because
`read_dir(..).unwrap()` can panic when the listing cannot be obtained.) -/
theorem C5_assembly_total_after_checks (ms : ManifestSource) (fs : FsView)
    (ctx : Except String Context) (item_id : Id) (entries : List DirEntry)
    (hp : fs.pathExists = true) (hd : fs.isDirectory = true)
    (hl : fs.listing = .ok entries) :
    ∃ m, ms.manifest_for fs ctx item_id = some (Except.ok m) := by
  obtain ⟨pe, dir, lst⟩ := fs
  cases hp
  cases hd
  cases hl
  exact ⟨_, rfl⟩

/-- C5 (witness): a directory whose listing contains an unreadable entry,
an unclassifiable file and a non-representable name still yields a
Manifest. -/
theorem C5_assembly_total_witness :
    ∃ m, (ManifestSource.mk "/data" (BaseUrls.mk "P" "I") "-").manifest_for
        (FsView.mk true true (.ok
          [DirEntry.readError "io error",
           DirEntry.found (EntryData.mk (some "notes.txt") none),
           DirEntry.found (EntryData.mk none
             (some (ImageInfo.mk ImageFormat.PNG 10 20)))]))
        (.error "no context") (Id.new "books") = some (Except.ok m) :=
  C5_assembly_total_after_checks (ManifestSource.mk "/data" (BaseUrls.mk "P" "I") "-")
    (FsView.mk true true (.ok
      [DirEntry.readError "io error",
       DirEntry.found (EntryData.mk (some "notes.txt") none),
       DirEntry.found (EntryData.mk none (some (ImageInfo.mk ImageFormat.PNG 10 20)))]))
    (.error "no context") (Id.new "books") _ rfl rfl rfl

/-! ### Claim C6 -/

/-- C6: every produced Manifest's metadata list is the sidecar's entries in
their original order followed by exactly one synthetic `"location"` entry
whose value is the single string equal to the resolved root identifier;
that entry is always last. -/
theorem C6_metadata_location_last (ms : ManifestSource) (fs : FsView)
    (ctx : Except String Context) (item_id : Id) (entries : List DirEntry)
    (hp : fs.pathExists = true) (hd : fs.isDirectory = true)
    (hl : fs.listing = .ok entries) :
    ∃ m, ms.manifest_for fs ctx item_id = some (Except.ok m) ∧
      m.metadata = (effContext ctx).metadata ++
        [Metadata.key_value "location" item_id.value] ∧
      m.metadata.getLast? = some (Metadata.key_value "location" item_id.value) := by
  obtain ⟨pe, dir, lst⟩ := fs
  cases hp
  cases hd
  cases hl
  refine ⟨_, rfl, rfl, ?_⟩
  show ((effContext ctx).metadata ++
      [Metadata.key_value "location" item_id.value]).getLast? =
    some (Metadata.key_value "location" item_id.value)
  simp

/-- C6 (witness): with a sidecar carrying one `author` entry, the produced
metadata is that entry followed by the `location` entry for `"books"`. -/
theorem C6_metadata_location_witness :
    ∃ m, (ManifestSource.mk "/data" (BaseUrls.mk "P" "I") "-").manifest_for
        (FsView.mk true true (.ok []))
        (.ok (Context.mk (some "a book")
          [Metadata.key_value "author" "Jane"])) (Id.new "books") =
        some (Except.ok m) ∧
      m.metadata = [Metadata.key_value "author" "Jane",
        Metadata.key_value "location" "books"] ∧
      m.metadata.getLast? = some (Metadata.key_value "location" "books") :=
  C6_metadata_location_last (ManifestSource.mk "/data" (BaseUrls.mk "P" "I") "-")
    (FsView.mk true true (.ok []))
    (.ok (Context.mk (some "a book") [Metadata.key_value "author" "Jane"]))
    (Id.new "books") [] rfl rfl rfl

/-! ### Claim C7 -/

/-- C7: the presentation URIs follow the fixed templates — Manifest id
`{presentation_base}/{item_id}/manifest`, Sequence id
`{presentation_base}/{item_id}/sequence/normal`, Canvas id
`{presentation_base}/{item_id}/canvas/{index}` — and `add_image` constructs
the new canvas at index `canvases.length`, its zero-based position in the
sequence at construction time. -/
theorem C7_presentation_uri_templates (b : BaseUrls) (item_id label : String)
    (metadata : List Metadata) (description : Option String)
    (index width height : Nat) (s : Sequence) (image_id : String)
    (fmt : ImageFormat) :
    ((Manifest.new b item_id label metadata description).id.value =
      b.presentation ++ "/" ++ item_id ++ "/manifest") ∧
    ((Sequence.new b item_id label).id.value =
      b.presentation ++ "/" ++ item_id ++ "/sequence/normal") ∧
    ((Canvas.new b item_id index label width height).id.value =
      b.presentation ++ "/" ++ item_id ++ "/canvas/" ++ toString index) ∧
    ((s.add_image b item_id image_id label fmt width height).canvases =
      s.canvases ++
        [canvasFor (AddCall.mk b item_id image_id label fmt width height)
          s.canvases.length]) :=
  ⟨rfl, rfl, rfl, rfl⟩

/-! ### Claim C8 -/

theorem add_image_canvases (s : Sequence) (c : AddCall) :
    (s.add_image c.base_urls c.item_id c.image_id c.label c.format c.width
        c.height).canvases =
      s.canvases ++ [canvasFor c s.canvases.length] := rfl

theorem runAddCalls_canvases (calls : List AddCall) :
    ∀ s : Sequence, (runAddCalls s calls).canvases =
      s.canvases ++ expectedCanvases s.canvases.length calls := by
  induction calls with
  | nil => intro s; simp [runAddCalls, expectedCanvases]
  | cons c cs ih =>
    intro s
    rw [show runAddCalls s (c :: cs) =
      runAddCalls (s.add_image c.base_urls c.item_id c.image_id c.label
        c.format c.width c.height) cs from rfl]
    rw [ih, add_image_canvases]
    simp [expectedCanvases, List.append_assoc]

theorem expectedCanvases_length (calls : List AddCall) :
    ∀ k, (expectedCanvases k calls).length = calls.length := by
  induction calls with
  | nil => intro k; rfl
  | cons c cs ih => intro k; simp [expectedCanvases, ih]

theorem mem_expectedCanvases (calls : List AddCall) :
    ∀ k cv, cv ∈ expectedCanvases k calls → ∃ c i, cv = canvasFor c i := by
  induction calls with
  | nil => intro k cv h; simp [expectedCanvases] at h
  | cons c cs ih =>
    intro k cv h
    simp only [expectedCanvases, List.mem_cons] at h
    cases h with
    | inl h => exact ⟨c, k, h⟩
    | inr h => exact ih _ _ h

theorem expectedCanvases_get (calls : List AddCall) :
    ∀ (k i : Nat) (hi : i < calls.length)
      (hc : i < (expectedCanvases k calls).length),
      (expectedCanvases k calls).get ⟨i, hc⟩ =
        canvasFor (calls.get ⟨i, hi⟩) (k + i) := by
  induction calls with
  | nil => intro k i hi _; exact absurd hi (by simp)
  | cons c cs ih =>
    intro k i hi hc
    cases i with
    | zero => rfl
    | succ j =>
      have hj : j < cs.length := by simpa using hi
      have hcj : j < (expectedCanvases (k + 1) cs).length := by
        rw [expectedCanvases_length]
        exact hj
      have hstep : (expectedCanvases k (c :: cs)).get ⟨j + 1, hc⟩ =
          (expectedCanvases (k + 1) cs).get ⟨j, hcj⟩ := rfl
      rw [hstep, ih (k + 1) j hj hcj]
      have harith : k + 1 + j = k + (j + 1) := by omega
      rw [harith]
      rfl

/-- C8: after any list of `Sequence::add_image` calls on a freshly
constructed Sequence, every Canvas carries exactly one annotation whose
motivation is `"sc:painting"` and whose target equals the owning Canvas's
id, and the canvas at position `i` carries exactly the width and height
that the `i`-th call passed in. -/
theorem C8_canvas_annotation_invariant (b : BaseUrls) (item label : String)
    (calls : List AddCall) :
    ((runAddCalls (Sequence.new b item label) calls).canvases.length =
      calls.length) ∧
    (∀ cv ∈ (runAddCalls (Sequence.new b item label) calls).canvases,
      cv.images.length = 1 ∧
        ∀ a ∈ cv.images, a.motivation = "sc:painting" ∧ a.onTarget = cv.id) ∧
    (∀ (i : Nat) (hi : i < calls.length)
        (hc : i < (runAddCalls (Sequence.new b item label) calls).canvases.length),
      (((runAddCalls (Sequence.new b item label) calls).canvases.get
          ⟨i, hc⟩).width = (calls.get ⟨i, hi⟩).width) ∧
        (((runAddCalls (Sequence.new b item label) calls).canvases.get
          ⟨i, hc⟩).height = (calls.get ⟨i, hi⟩).height)) := by
  have hch : (runAddCalls (Sequence.new b item label) calls).canvases =
      expectedCanvases 0 calls := by
    rw [runAddCalls_canvases]
    rfl
  refine ⟨?_, ?_, ?_⟩
  · rw [hch, expectedCanvases_length]
  · intro cv hcv
    rw [hch] at hcv
    obtain ⟨c, i, rfl⟩ := mem_expectedCanvases calls 0 cv hcv
    refine ⟨rfl, fun a ha => ?_⟩
    have him : (canvasFor c i).images =
        [Annot.new c.base_urls
          (Resource.Image (ImageResource.new c.base_urls c.item_id c.image_id
            c.format c.width c.height))
          (canvasFor c i).id] := rfl
    rw [him, List.mem_singleton] at ha
    subst ha
    exact ⟨rfl, rfl⟩
  · intro i hi hc
    have hcast : i < (expectedCanvases 0 calls).length := by
      rw [← hch]
      exact hc
    have h1 : (runAddCalls (Sequence.new b item label) calls).canvases.get ⟨i, hc⟩ =
        (expectedCanvases 0 calls).get ⟨i, hcast⟩ := List.get_of_eq hch ⟨i, hc⟩
    rw [h1, expectedCanvases_get calls 0 i hi]
    exact ⟨rfl, rfl⟩

/-- C8 (witness): one call of width 800 and height 1200 yields a sequence
whose single canvas has that width and height. -/
theorem C8_canvas_annotation_witness :
    (((runAddCalls (Sequence.new (BaseUrls.mk "P" "I") "item" "item")
        [AddCall.mk (BaseUrls.mk "P" "I") "item" "item-a.jpg" "a.jpg"
          ImageFormat.JPEG 800 1200]).canvases.get ⟨0, by decide⟩).width = 800) ∧
    (((runAddCalls (Sequence.new (BaseUrls.mk "P" "I") "item" "item")
        [AddCall.mk (BaseUrls.mk "P" "I") "item" "item-a.jpg" "a.jpg"
          ImageFormat.JPEG 800 1200]).canvases.get ⟨0, by decide⟩).height = 1200) :=
  (C8_canvas_annotation_invariant (BaseUrls.mk "P" "I") "item" "item"
    [AddCall.mk (BaseUrls.mk "P" "I") "item" "item-a.jpg" "a.jpg"
      ImageFormat.JPEG 800 1200]).2.2 0 (by decide) (by decide)

/-! ### Claim C9 -/

/-- C9: assembly is deterministic — the same configuration, identifier,
filesystem answers (existence, directory-ness, listing order and entry
data), classifier results and sidecar data produce identical Manifest
results. -/
theorem C9_deterministic (ms : ManifestSource) (fs1 fs2 : FsView)
    (ctx1 ctx2 : Except String Context) (id1 id2 : Id)
    (hf : fs1 = fs2) (hc : ctx1 = ctx2) (hi : id1 = id2) :
    ms.manifest_for fs1 ctx1 id1 = ms.manifest_for fs2 ctx2 id2 := by
  subst hf
  subst hc
  subst hi
  rfl

/-- C9 (witness): determinism at a concrete request. -/
theorem C9_deterministic_witness :
    (ManifestSource.mk "/data" (BaseUrls.mk "P" "I") "-").manifest_for
        (FsView.mk true true (.ok [DirEntry.found (EntryData.mk (some "a.jpg")
          (some (ImageInfo.mk ImageFormat.JPEG 1 2)))]))
        (.error "e") (Id.new "books") =
      (ManifestSource.mk "/data" (BaseUrls.mk "P" "I") "-").manifest_for
        (FsView.mk true true (.ok [DirEntry.found (EntryData.mk (some "a.jpg")
          (some (ImageInfo.mk ImageFormat.JPEG 1 2)))]))
        (.error "e") (Id.new "books") :=
  C9_deterministic (ManifestSource.mk "/data" (BaseUrls.mk "P" "I") "-")
    (FsView.mk true true (.ok [DirEntry.found (EntryData.mk (some "a.jpg")
      (some (ImageInfo.mk ImageFormat.JPEG 1 2)))]))
    (FsView.mk true true (.ok [DirEntry.found (EntryData.mk (some "a.jpg")
      (some (ImageInfo.mk ImageFormat.JPEG 1 2)))]))
    (.error "e") (.error "e") (Id.new "books") (Id.new "books") rfl rfl rfl

/-! ### Claim C10 -/

/-- C10: every constructed image-service descriptor carries the literal
protocol string `"http://iiiif.io/api/image"` (note the extra `i` in the
host name), which differs from the official IIIF protocol URI
`"http://iiif.io/api/image"`; the constant is the same for every request
and every image. -/
theorem C10_protocol_literal (b : BaseUrls) (image_id : String) :
    ((Service.new_image_service b image_id).protocol.value =
      "http://iiiif.io/api/image") ∧
    ("http://iiiif.io/api/image" ≠ "http://iiif.io/api/image") ∧
    (∀ (b2 : BaseUrls) (image_id2 : String),
      (Service.new_image_service b2 image_id2).protocol =
        (Service.new_image_service b image_id).protocol) :=
  ⟨rfl, by decide, fun _ _ => rfl⟩

end Presenter
